import Mathlib

set_option autoImplicit false
set_option maxHeartbeats 1000000

/-!
A shallow embedding of `src/sagemaker/cli/compatibility/v2/modifiers/framework_version.py`
(the `FrameworkVersionEnforcer` modifier of the sagemaker-python-sdk repository),
together with theorems about its behaviour.

Python `ast.Call` nodes are modelled by the `Call` structure, callee expressions by the
`Func` inductive (`ast.Name`, `ast.Attribute`, and a catch-all for every other
expression kind), keyword-argument values by `KwVal`, and the exceptions the Python
code can raise by `PyErr`.  Fallible Python code is translated into `Except PyErr`
values; in-place mutation of a call node is translated into returning the new node.
Every function of the Python module is translated into a Lean definition of the same
name, keeping the source's control flow.
-/

deriving instance DecidableEq for Except

/-- The exceptions the Python module can raise: `kw.value.s` on a node without an
`s` attribute raises `AttributeError`; `int(s)` on a malformed string raises
`ValueError`; `FRAMEWORK_DEFAULTS[framework]` on a missing key raises `KeyError`. -/
inductive PyErr where
  | attributeError
  | valueError
  | keyError
  deriving DecidableEq

/-- The value of a keyword argument, as inspected by `_arg_value`:
`str s` models a string-literal node (`ast.Str`, whose `.s` attribute is `s`);
`nonLiteral` models any computed, non-literal expression node (for example a
variable reference), on which accessing `.s` raises `AttributeError`. -/
inductive KwVal where
  | str (s : String)
  | nonLiteral
  deriving DecidableEq

/-- A callee expression: `ast.Name` (with its `id`), `ast.Attribute` (with its
`value` and `attr` fields), or any other expression kind. -/
inductive Func where
  | name (id : String)
  | attributeNode (value : Func) (attr : String)
  | other
  deriving DecidableEq

/-- An `ast.keyword` node: `arg` is the keyword name (`none` for `**kwargs`),
`value` the argument value.  In a parsed AST `value` is always a node, hence
always truthy, so the `and kw.value` guard of `_arg_value` is not modelled
separately. -/
structure Keyword where
  arg : Option String
  value : KwVal
  deriving DecidableEq

/-- An `ast.Call` node, with the two fields the modifier consumes. -/
structure Call where
  func : Func
  keywords : List Keyword
  deriving DecidableEq

/-- `FRAMEWORK_ARG = "framework_version"` -/
def FRAMEWORK_ARG : String := "framework_version"

/-- `PY_ARG = "py_version"` -/
def PY_ARG : String := "py_version"

/-- The `FRAMEWORK_DEFAULTS` dict, as an association list (Python dicts keep
insertion order). -/
def FRAMEWORK_DEFAULTS : List (String × String) :=
  [("Chainer", "4.1.0"), ("MXNet", "1.2.0"), ("PyTorch", "0.4.0"),
   ("SKLearn", "0.20.0"), ("TensorFlow", "1.11.0")]

/-- `FRAMEWORK_CLASSES = list(FRAMEWORK_DEFAULTS.keys())` -/
def FRAMEWORK_CLASSES : List String := FRAMEWORK_DEFAULTS.map Prod.fst

/-- `MODEL_CLASSES = ["{}Model".format(fw) for fw in FRAMEWORK_CLASSES]` -/
def MODEL_CLASSES : List String := FRAMEWORK_CLASSES.map (fun fw => fw ++ "Model")

/-- `FRAMEWORK_MODULES = [fw.lower() for fw in FRAMEWORK_CLASSES]`, written out as
the literal lowercase forms of the five class names. -/
def FRAMEWORK_MODULES : List String :=
  ["chainer", "mxnet", "pytorch", "sklearn", "tensorflow"]

/-- `FRAMEWORK_SUBMODULES = ("model", "estimator")` -/
def FRAMEWORK_SUBMODULES : List String := ["model", "estimator"]

/-- Python dict lookup `d[k]` on a string-keyed table, returning `none` where
Python would raise `KeyError`. -/
def dictGet (d : List (String × String)) (k : String) : Option String :=
  match d.find? (fun p => p.1 == k) with
  | some p => some p.2
  | none => none

/-- The numeric value of a decimal digit character, `none` otherwise. -/
def charDigit? (c : Char) : Option Nat :=
  if c.isDigit then some (c.toNat - '0'.toNat) else none

/-- Accumulating helper for `digitsVal`. -/
def digitsValGo : List Char → Nat → Option Nat
  | [], acc => some acc
  | c :: cs, acc =>
    match charDigit? c with
    | some d => digitsValGo cs (acc * 10 + d)
    | none => none

/-- The value of a non-empty all-digit character sequence, `none` otherwise. -/
def digitsVal : List Char → Option Nat
  | [] => none
  | c :: cs =>
    match charDigit? c with
    | some d => digitsValGo cs d
    | none => none

/-- Models Python `int(s)` on the strings reached by the version parser: an
optional sign followed by decimal digits; anything else raises `ValueError`. -/
def pyInt (s : String) : Except PyErr Int :=
  match s.data with
  | '-' :: cs =>
    match digitsVal cs with
    | some n => .ok (-(n : Int))
    | none => .error .valueError
  | '+' :: cs =>
    match digitsVal cs with
    | some n => .ok (n : Int)
    | none => .error .valueError
  | cs =>
    match digitsVal cs with
    | some n => .ok (n : Int)
    | none => .error .valueError

/-- Models the list comprehension `[int(s) for s in ...]`: the first `int`
failure propagates as `ValueError`. -/
def pyIntList : List String → Except PyErr (List Int)
  | [] => .ok []
  | s :: ss =>
    match pyInt s with
    | .error e => .error e
    | .ok n =>
      match pyIntList ss with
      | .error e => .error e
      | .ok ns => .ok (n :: ns)

/-- Splits a character list on a separator character, keeping empty pieces,
so that the empty input yields one empty piece — the behaviour of Python's
`str.split` with an explicit separator. -/
def splitOnChar (c : Char) : List Char → List (List Char)
  | [] => [[]]
  | d :: ds =>
    if d == c then [] :: splitOnChar c ds
    else
      match splitOnChar c ds with
      | [] => [[d]]
      | p :: ps => (d :: p) :: ps

/-- Models Python `s.split(".")`. -/
def pySplitDot (s : String) : List String :=
  (splitOnChar '.' s.data).map (fun cs => String.mk cs)

/-- Models Python `s.endswith(t)`. -/
def strEndsWith (s t : String) : Bool := t.data.isSuffixOf s.data

/-- The longest prefix of a character list that stops right before the first
occurrence of `pat`; the whole list if `pat` never occurs. -/
def takeUntilSub (pat : List Char) : List Char → List Char
  | [] => []
  | c :: cs => if pat.isPrefixOf (c :: cs) then [] else c :: takeUntilSub pat cs

/-- Models `framework[: framework.find("Model")]`: Python's `find` returns the
index of the first occurrence of `"Model"`, and the slice keeps everything
before it.  (The call is guarded by `framework.endswith("Model")`, so the
substring always occurs there.) -/
def stripAtModel (s : String) : String :=
  String.mk (takeUntilSub "Model".data s.data)

/-- Python comparison `<` on lists of ints: elementwise left-to-right, first
strictly-smaller element decides, a strict prefix is smaller. -/
def listLt : List Int → List Int → Bool
  | [], [] => false
  | [], _ :: _ => true
  | _ :: _, [] => false
  | a :: as, b :: bs => if a < b then true else if b < a then false else listLt as bs

/-- Python truthiness of a string-or-None value: `None` and the empty string
are falsy. -/
def strTruthy : Option String → Bool
  | none => false
  | some s => !(s == "")

/-- The keyword scan of `_arg_value`, over the keyword list: the first keyword
whose `arg` matches answers; its `.s` attribute access raises `AttributeError`
on a non-literal value; `None` is returned when no keyword matches. -/
def argValueList : List Keyword → String → Except PyErr (Option String)
  | [], _ => .ok none
  | kw :: kws, arg =>
    if kw.arg == some arg then
      match kw.value with
      | .str s => .ok (some s)
      | .nonLiteral => .error .attributeError
    else argValueList kws arg

/-- Translation of `_arg_value(node, arg)`. -/
def _arg_value (node : Call) (arg : String) : Except PyErr (Option String) :=
  argValueList node.keywords arg

/-- Translation of `_framework_from_node(node)`: the trailing simple name of the
callee (empty for the defensive fallback), with a trailing `"Model"` suffix
stripped and reported as the model flag. -/
def _framework_from_node (node : Call) : String × Bool :=
  let framework :=
    match node.func with
    | .name id => id
    | .attributeNode _ attr => attr
    | .other => ""
  let is_model := strEndsWith framework "Model"
  (if is_model then stripAtModel framework else framework, is_model)

/-- Translation of `_is_in_framework_module(node)`: the argument (always an
`ast.Attribute` at both call sites) has an `ast.Attribute` value whose `attr`
is a framework module name and whose own value is the bare name `sagemaker`. -/
def _is_in_framework_module (node : Func) : Bool :=
  match node with
  | .attributeNode (.attributeNode (.name id) attr2) _ =>
      FRAMEWORK_MODULES.contains attr2 && (id == "sagemaker")
  | _ => false

/-- Translation of `_is_named_constructor(node, names)`. -/
def _is_named_constructor (node : Call) (names : List String) : Bool :=
  match node.func with
  | .name id => names.contains id
  | .attributeNode value attr =>
    if names.contains attr then
      match value with
      | .attributeNode _ vattr =>
        if FRAMEWORK_SUBMODULES.contains vattr then _is_in_framework_module value
        else _is_in_framework_module (.attributeNode value attr)
      | _ => _is_in_framework_module (.attributeNode value attr)
    else false
  | .other => false

/-- Translation of `_tf_py_version_default(framework_version)`. -/
def _tf_py_version_default (framework_version : String) : Except PyErr String :=
  if framework_version == "" then .ok "py2"
  else
    match pyIntList (pySplitDot framework_version) with
    | .error e => .error e
    | .ok version =>
      if listLt version [1, 12] then .ok "py2"
      else if listLt version [2, 2] then .ok "py3"
      else .ok "py37"

/-- Translation of `_py_version_defaults(framework, framework_version, is_model)`:
`none` models Python's `None` result. -/
def _py_version_defaults (framework framework_version : String) (is_model : Bool) :
    Except PyErr (Option String) :=
  if framework == "Chainer" || framework == "PyTorch" then .ok (some "py3")
  else if framework == "SKLearn" && !is_model then .ok (some "py3")
  else if framework == "MXNet" then .ok (some "py2")
  else if framework == "TensorFlow" && !is_model then
    match _tf_py_version_default framework_version with
    | .error e => .error e
    | .ok p => .ok (some p)
  else .ok none

/-- Translation of `_version_args_needed(node, image_arg)`. -/
def _version_args_needed (node : Call) (image_arg : String) : Except PyErr Bool :=
  match _arg_value node image_arg with
  | .error e => .error e
  | .ok image_name =>
    if strTruthy image_name then .ok false
    else
      match _arg_value node FRAMEWORK_ARG with
      | .error e => .error e
      | .ok none => .ok true
      | .ok (some framework_version) =>
        match _py_version_defaults (_framework_from_node node).1 framework_version
            (_framework_from_node node).2 with
        | .error e => .error e
        | .ok expecting_py_version =>
          if strTruthy expecting_py_version then
            match _arg_value node PY_ARG with
            | .error e => .error e
            | .ok py_version => .ok (py_version == none)
          else .ok false

/-- Translation of `FrameworkVersionEnforcer.node_should_be_modified(node)`. -/
def node_should_be_modified (node : Call) : Except PyErr Bool :=
  if _is_named_constructor node FRAMEWORK_CLASSES then
    _version_args_needed node "image_name"
  else if _is_named_constructor node MODEL_CLASSES then
    _version_args_needed node "image"
  else .ok false

/-- Models `node.keywords.append(ast.keyword(arg=arg, value=ast.Str(s=s)))`. -/
def appendKw (node : Call) (arg : String) (s : String) : Call :=
  { node with keywords := node.keywords ++ [{ arg := some arg, value := KwVal.str s }] }

/-- The second half of `modify_node` (its `py_version` paragraph), operating on
the node as it stands after the `framework_version` paragraph, with the
framework, the version value in effect, and the model flag already computed. -/
def modifyPy (node1 : Call) (framework framework_version : String) (is_model : Bool) :
    Except PyErr Call :=
  match _arg_value node1 PY_ARG with
  | .error e => .error e
  | .ok (some _) => .ok node1
  | .ok none =>
    match _py_version_defaults framework framework_version is_model with
    | .error e => .error e
    | .ok none => .ok node1
    | .ok (some p) => if p == "" then .ok node1 else .ok (appendKw node1 PY_ARG p)

/-- Translation of `FrameworkVersionEnforcer.modify_node(node)`: the returned
call is the node after mutation.  An `.error` result models an escaping Python
exception (the partially mutated node is then discarded, since no property
stated here observes it). -/
def modify_node (node : Call) : Except PyErr Call :=
  match _arg_value node FRAMEWORK_ARG with
  | .error e => .error e
  | .ok (some framework_version) =>
    modifyPy node (_framework_from_node node).1 framework_version
      (_framework_from_node node).2
  | .ok none =>
    match dictGet FRAMEWORK_DEFAULTS (_framework_from_node node).1 with
    | none => .error .keyError
    | some default_version =>
      modifyPy (appendKw node FRAMEWORK_ARG default_version)
        (_framework_from_node node).1 default_version (_framework_from_node node).2

/-- The three callee shapes the call-site matcher is meant to accept, stated
structurally: a bare candidate name, `sagemaker.<module>.<ClassName>`, or
`sagemaker.<module>.<submodule>.<ClassName>`. -/
def matchesRecognizedShape (f : Func) (names : List String) : Prop :=
  (∃ cls, f = .name cls ∧ cls ∈ names) ∨
  (∃ fm cls, f = .attributeNode (.attributeNode (.name "sagemaker") fm) cls ∧
    fm ∈ FRAMEWORK_MODULES ∧ cls ∈ names) ∨
  (∃ fm sub cls,
    f = .attributeNode (.attributeNode (.attributeNode (.name "sagemaker") fm) sub) cls ∧
    fm ∈ FRAMEWORK_MODULES ∧ sub ∈ FRAMEWORK_SUBMODULES ∧ cls ∈ names)

/-! ### Concrete call nodes used as test inputs -/

/-- The call `MXNet(entry_point="train.py")`. -/
def mxnetCall : Call :=
  { func := .name "MXNet",
    keywords := [{ arg := some "entry_point", value := .str "train.py" }] }

/-- The call `MXNet(entry_point="train.py", framework_version="1.2.0", py_version="py2")`. -/
def mxnetCallModified : Call :=
  { func := .name "MXNet",
    keywords := [{ arg := some "entry_point", value := .str "train.py" },
                 { arg := some FRAMEWORK_ARG, value := .str "1.2.0" },
                 { arg := some PY_ARG, value := .str "py2" }] }

/-- The call `MXNet(framework_version=<computed expression>)`. -/
def nonLiteralVersionCall : Call :=
  { func := .name "MXNet",
    keywords := [{ arg := some FRAMEWORK_ARG, value := .nonLiteral }] }

/-- The call `TensorFlow(image_name="my-image:latest")`. -/
def tfImageCall : Call :=
  { func := .name "TensorFlow",
    keywords := [{ arg := some "image_name", value := .str "my-image:latest" }] }

/-- The call `SKLearnModel()`. -/
def sklearnModelCall : Call := { func := .name "SKLearnModel", keywords := [] }

/-- The call `PyTorchModel()`. -/
def pytorchModelCall : Call := { func := .name "PyTorchModel", keywords := [] }

/-- The call `Chainer()`. -/
def chainerCall : Call := { func := .name "Chainer", keywords := [] }

/-- The call `TensorFlow(framework_version="")`. -/
def tfEmptyVersionCall : Call :=
  { func := .name "TensorFlow",
    keywords := [{ arg := some FRAMEWORK_ARG, value := .str "" }] }

/-- The call `MXNet(image_name="")`. -/
def mxEmptyImageCall : Call :=
  { func := .name "MXNet",
    keywords := [{ arg := some "image_name", value := .str "" }] }


/-! ### Lemmas about the keyword lookup -/

theorem argValueList_append (l₁ l₂ : List Keyword) (a : String) :
    argValueList (l₁ ++ l₂) a =
      match argValueList l₁ a with
      | .ok none => argValueList l₂ a
      | r => r := by
  induction l₁ with
  | nil => simp [argValueList]
  | cons kw l ih =>
    simp only [List.cons_append, argValueList]
    by_cases h : (kw.arg == some a) = true
    · rw [if_pos h, if_pos h]
      cases kw.value <;> rfl
    · rw [if_neg h, if_neg h]
      exact ih

theorem argValueList_of_absent (l : List Keyword) (a : String)
    (h : ∀ kw ∈ l, kw.arg ≠ some a) : argValueList l a = .ok none := by
  induction l with
  | nil => rfl
  | cons kw l ih =>
    have h1 : kw.arg ≠ some a := h kw (by simp)
    simp only [argValueList]
    rw [if_neg (by simpa using h1)]
    exact ih (fun kw hkw => h kw (by simp [hkw]))

theorem appendKw_func (node : Call) (a s : String) :
    (appendKw node a s).func = node.func := rfl

theorem framework_appendKw (node : Call) (a s : String) :
    _framework_from_node (appendKw node a s) = _framework_from_node node := rfl

theorem matcher_appendKw (node : Call) (a s : String) (names : List String) :
    _is_named_constructor (appendKw node a s) names = _is_named_constructor node names := rfl

theorem argValue_appendKw_ne (node : Call) (a s b : String) (h : a ≠ b) :
    _arg_value (appendKw node a s) b = _arg_value node b := by
  show argValueList (node.keywords ++ [{ arg := some a, value := KwVal.str s }]) b =
    argValueList node.keywords b
  rw [argValueList_append]
  cases hr : argValueList node.keywords b with
  | ok v =>
    cases v with
    | none => simp [argValueList, h]
    | some s' => rfl
  | error e => rfl

theorem argValue_appendKw_same (node : Call) (a s : String) :
    _arg_value (appendKw node a s) a =
      match _arg_value node a with
      | .ok none => .ok (some s)
      | r => r := by
  show argValueList (node.keywords ++ [{ arg := some a, value := KwVal.str s }]) a =
    match argValueList node.keywords a with
    | .ok none => .ok (some s)
    | r => r
  rw [argValueList_append]
  cases hr : argValueList node.keywords a with
  | ok v =>
    cases v with
    | none => simp [argValueList]
    | some s' => rfl
  | error e => rfl

theorem argValue_of_absent (node : Call) (a : String)
    (h : ∀ kw ∈ node.keywords, kw.arg ≠ some a) : _arg_value node a = .ok none :=
  argValueList_of_absent node.keywords a h

/-! ### Lemmas about the call-site matcher -/

theorem submodules_disjoint_modules (x : String)
    (h : x ∈ FRAMEWORK_MODULES) : x ∉ FRAMEWORK_SUBMODULES := by
  fin_cases h <;> decide

theorem matcher_iff (node : Call) (names : List String) :
    _is_named_constructor node names = true ↔ matchesRecognizedShape node.func names := by
  obtain ⟨f, kws⟩ := node
  show _is_named_constructor ⟨f, kws⟩ names = true ↔ matchesRecognizedShape f names
  cases f with
  | name id => simp [_is_named_constructor, matchesRecognizedShape]
  | other => simp [_is_named_constructor, matchesRecognizedShape]
  | attributeNode v cls =>
    cases v with
    | name x =>
      simp [_is_named_constructor, _is_in_framework_module, matchesRecognizedShape]
    | other =>
      simp [_is_named_constructor, _is_in_framework_module, matchesRecognizedShape]
    | attributeNode v2 a2 =>
      cases v2 with
      | name x =>
        by_cases hmod : a2 ∈ FRAMEWORK_MODULES
        · have hsub := submodules_disjoint_modules a2 hmod
          by_cases hcls : cls ∈ names <;> by_cases hx : x = "sagemaker" <;>
            simp [_is_named_constructor, _is_in_framework_module, matchesRecognizedShape,
              hmod, hsub, hcls, hx] <;>
            exact ⟨a2, cls, ⟨rfl, rfl⟩, hmod, hcls⟩
        · by_cases hsub : a2 ∈ FRAMEWORK_SUBMODULES <;>
            simp [_is_named_constructor, _is_in_framework_module, matchesRecognizedShape,
              hmod, hsub]
      | other =>
        simp [_is_named_constructor, _is_in_framework_module, matchesRecognizedShape]
      | attributeNode v3 a3 =>
        cases v3 with
        | name y =>
          by_cases hsub : a2 ∈ FRAMEWORK_SUBMODULES <;>
            by_cases hmod : a3 ∈ FRAMEWORK_MODULES <;>
              by_cases hcls : cls ∈ names <;> by_cases hy : y = "sagemaker" <;>
                simp [_is_named_constructor, _is_in_framework_module,
                  matchesRecognizedShape, hsub, hmod, hcls, hy] <;>
                exact ⟨a3, a2, cls, ⟨⟨rfl, rfl⟩, rfl⟩, hmod, hsub, hcls⟩
        | other =>
          simp [_is_named_constructor, _is_in_framework_module, matchesRecognizedShape]
        | attributeNode v4 a4 =>
          simp [_is_named_constructor, _is_in_framework_module, matchesRecognizedShape]

theorem matcher_trailing (node : Call) (names : List String)
    (h : _is_named_constructor node names = true) :
    ∃ cls, cls ∈ names ∧
      (node.func = .name cls ∨ ∃ v, node.func = .attributeNode v cls) := by
  rcases (matcher_iff node names).mp h with ⟨cls, hcls, hmem⟩ |
      ⟨fm, cls, hcls, _, hmem⟩ | ⟨fm, sub, cls, hcls, _, _, hmem⟩
  · exact ⟨cls, hmem, Or.inl hcls⟩
  · exact ⟨cls, hmem, Or.inr ⟨_, hcls⟩⟩
  · exact ⟨cls, hmem, Or.inr ⟨_, hcls⟩⟩

/-! ### Lemmas about the framework tables -/

theorem mem_framework_classes (cls : String) (h : cls ∈ FRAMEWORK_CLASSES) :
    cls = "Chainer" ∨ cls = "MXNet" ∨ cls = "PyTorch" ∨ cls = "SKLearn" ∨
      cls = "TensorFlow" := by
  simpa [FRAMEWORK_CLASSES, FRAMEWORK_DEFAULTS] using h

theorem model_classes_eq :
    MODEL_CLASSES = ["ChainerModel", "MXNetModel", "PyTorchModel", "SKLearnModel",
      "TensorFlowModel"] := by decide

theorem mem_model_classes (cls : String) (h : cls ∈ MODEL_CLASSES) :
    cls = "ChainerModel" ∨ cls = "MXNetModel" ∨ cls = "PyTorchModel" ∨
      cls = "SKLearnModel" ∨ cls = "TensorFlowModel" := by
  rw [model_classes_eq] at h
  simpa using h

theorem dictGet_cases (f d : String) (h : dictGet FRAMEWORK_DEFAULTS f = some d) :
    (f = "Chainer" ∧ d = "4.1.0") ∨ (f = "MXNet" ∧ d = "1.2.0") ∨
      (f = "PyTorch" ∧ d = "0.4.0") ∨ (f = "SKLearn" ∧ d = "0.20.0") ∨
      (f = "TensorFlow" ∧ d = "1.11.0") := by
  by_cases h1 : f = "Chainer"
  · subst h1
    refine Or.inl ⟨rfl, ?_⟩
    have hc : dictGet FRAMEWORK_DEFAULTS "Chainer" = some "4.1.0" := by decide
    rw [hc] at h
    exact (Option.some.inj h).symm
  by_cases h2 : f = "MXNet"
  · subst h2
    refine Or.inr (Or.inl ⟨rfl, ?_⟩)
    have hc : dictGet FRAMEWORK_DEFAULTS "MXNet" = some "1.2.0" := by decide
    rw [hc] at h
    exact (Option.some.inj h).symm
  by_cases h3 : f = "PyTorch"
  · subst h3
    refine Or.inr (Or.inr (Or.inl ⟨rfl, ?_⟩))
    have hc : dictGet FRAMEWORK_DEFAULTS "PyTorch" = some "0.4.0" := by decide
    rw [hc] at h
    exact (Option.some.inj h).symm
  by_cases h4 : f = "SKLearn"
  · subst h4
    refine Or.inr (Or.inr (Or.inr (Or.inl ⟨rfl, ?_⟩)))
    have hc : dictGet FRAMEWORK_DEFAULTS "SKLearn" = some "0.20.0" := by decide
    rw [hc] at h
    exact (Option.some.inj h).symm
  by_cases h5 : f = "TensorFlow"
  · subst h5
    refine Or.inr (Or.inr (Or.inr (Or.inr ⟨rfl, ?_⟩)))
    have hc : dictGet FRAMEWORK_DEFAULTS "TensorFlow" = some "1.11.0" := by decide
    rw [hc] at h
    exact (Option.some.inj h).symm
  exfalso
  have e1 : ("Chainer" == f) = false := by
    simp only [beq_eq_false_iff_ne, ne_eq]
    exact fun hh => h1 hh.symm
  have e2 : ("MXNet" == f) = false := by
    simp only [beq_eq_false_iff_ne, ne_eq]
    exact fun hh => h2 hh.symm
  have e3 : ("PyTorch" == f) = false := by
    simp only [beq_eq_false_iff_ne, ne_eq]
    exact fun hh => h3 hh.symm
  have e4 : ("SKLearn" == f) = false := by
    simp only [beq_eq_false_iff_ne, ne_eq]
    exact fun hh => h4 hh.symm
  have e5 : ("TensorFlow" == f) = false := by
    simp only [beq_eq_false_iff_ne, ne_eq]
    exact fun hh => h5 hh.symm
  have hnone : dictGet FRAMEWORK_DEFAULTS f = none := by
    simp [dictGet, FRAMEWORK_DEFAULTS, List.find?, e1, e2, e3, e4, e5]
  rw [hnone] at h
  exact Option.noConfusion h

/-- On a default version drawn from the table, the py-version computation never
raises: for every framework in the table, its default framework version is
well formed. -/
theorem table_py (f d : String) (b : Bool)
    (h : dictGet FRAMEWORK_DEFAULTS f = some d) :
    ∃ r, _py_version_defaults f d b = .ok r := by
  rcases dictGet_cases f d h with ⟨hf, hd⟩ | ⟨hf, hd⟩ | ⟨hf, hd⟩ | ⟨hf, hd⟩ | ⟨hf, hd⟩ <;>
    subst hf <;> subst hd <;> cases b <;>
    first
      | exact ⟨some "py3", by decide⟩
      | exact ⟨some "py2", by decide⟩
      | exact ⟨none, by decide⟩

/-- The trailing name of the callee, as read off by `_framework_from_node`. -/
theorem framework_from_node_of_trailing (node : Call) (cls : String)
    (hf : node.func = .name cls ∨ ∃ v, node.func = .attributeNode v cls) :
    _framework_from_node node =
      (if strEndsWith cls "Model" then stripAtModel cls else cls,
       strEndsWith cls "Model") := by
  unfold _framework_from_node
  rcases hf with h | ⟨v, h⟩ <;> rw [h]

theorem framework_of_class (node : Call) (cls : String)
    (hcls : cls ∈ FRAMEWORK_CLASSES)
    (hf : node.func = .name cls ∨ ∃ v, node.func = .attributeNode v cls) :
    _framework_from_node node = (cls, false) := by
  rw [framework_from_node_of_trailing node cls hf]
  rcases mem_framework_classes cls hcls with h | h | h | h | h <;> subst h <;> decide

theorem framework_of_model_class (node : Call) (cls : String)
    (hcls : cls ∈ MODEL_CLASSES)
    (hf : node.func = .name cls ∨ ∃ v, node.func = .attributeNode v cls) :
    ∃ fw, fw ∈ FRAMEWORK_CLASSES ∧ _framework_from_node node = (fw, true) := by
  rw [framework_from_node_of_trailing node cls hf]
  rcases mem_model_classes cls hcls with h | h | h | h | h <;> subst h
  · exact ⟨"Chainer", by decide, by decide⟩
  · exact ⟨"MXNet", by decide, by decide⟩
  · exact ⟨"PyTorch", by decide, by decide⟩
  · exact ⟨"SKLearn", by decide, by decide⟩
  · exact ⟨"TensorFlow", by decide, by decide⟩

theorem dictGet_of_class (fw : String) (h : fw ∈ FRAMEWORK_CLASSES) :
    ∃ d, dictGet FRAMEWORK_DEFAULTS fw = some d := by
  rcases mem_framework_classes fw h with hh | hh | hh | hh | hh <;> subst hh
  · exact ⟨"4.1.0", by decide⟩
  · exact ⟨"1.2.0", by decide⟩
  · exact ⟨"0.4.0", by decide⟩
  · exact ⟨"0.20.0", by decide⟩
  · exact ⟨"1.11.0", by decide⟩

/-! ### The code's list comparison agrees with lexicographic order -/

theorem listLt_iff_lex (a b : List Int) :
    listLt a b = true ↔ List.Lex (fun x y : Int => x < y) a b := by
  induction a generalizing b with
  | nil =>
    cases b with
    | nil => simp [listLt]
      -- Lex r [] [] is impossible
    | cons y ys =>
      simp only [listLt]
      exact ⟨fun _ => List.Lex.nil, fun _ => trivial⟩
  | cons x xs ih =>
    cases b with
    | nil =>
      simp only [listLt]
      constructor
      · intro hh
        exact absurd hh (by simp)
      · intro hh
        cases hh
    | cons y ys =>
      simp only [listLt]
      by_cases h1 : x < y
      · rw [if_pos h1]
        exact ⟨fun _ => List.Lex.rel h1, fun _ => rfl⟩
      · rw [if_neg h1]
        by_cases h2 : y < x
        · rw [if_pos h2]
          constructor
          · intro hh
            exact absurd hh (by simp)
          · intro hh
            cases hh with
            | cons htail => exact absurd h2 (lt_irrefl x)
            | rel hrel => exact absurd hrel h1
        · rw [if_neg h2]
          have hxy : x = y := le_antisymm (not_lt.mp h2) (not_lt.mp h1)
          subst hxy
          constructor
          · intro hh
            exact List.Lex.cons ((ih ys).mp hh)
          · intro hh
            cases hh with
            | cons htail => exact (ih ys).mpr htail
            | rel hrel => exact absurd hrel h1

/-! ### The only exceptions each helper can raise -/

theorem argValueList_ne_keyError (l : List Keyword) (a : String) :
    argValueList l a ≠ .error .keyError := by
  induction l with
  | nil => simp [argValueList]
  | cons kw kws ih =>
    simp only [argValueList]
    by_cases h : (kw.arg == some a) = true
    · rw [if_pos h]
      cases kw.value <;> simp
    · rw [if_neg h]
      exact ih

theorem pyIntList_ne_keyError (l : List String) :
    pyIntList l ≠ .error .keyError := by
  induction l with
  | nil => simp [pyIntList]
  | cons s ss ih =>
    simp only [pyIntList]
    cases hs : pyInt s with
    | error e =>
      unfold pyInt at hs
      intro hh
      injection hh with hh2
      subst hh2
      revert hs
      cases s.data with
      | nil => cases hd : digitsVal [] <;> simp [hd]
      | cons c cs =>
        by_cases hc1 : c = '-'
        · subst hc1
          cases hd : digitsVal cs <;> simp [hd]
        · by_cases hc2 : c = '+'
          · subst hc2
            cases hd : digitsVal cs <;> simp [hd]
          · cases hd : digitsVal (c :: cs) <;> simp [hd, hc1, hc2]
    | ok n =>
      cases hss : pyIntList ss with
      | error e =>
        intro hh
        injection hh with hh2
        subst hh2
        exact ih hss
      | ok ns => simp

theorem tf_py_version_ne_keyError (v : String) :
    _tf_py_version_default v ≠ .error .keyError := by
  unfold _tf_py_version_default
  by_cases hv : (v == "") = true
  · rw [if_pos hv]
    simp
  · rw [if_neg hv]
    cases hp : pyIntList (pySplitDot v) with
    | error e =>
      intro hh
      injection hh with hh2
      subst hh2
      exact pyIntList_ne_keyError _ hp
    | ok ver =>
      simp only []
      by_cases h1 : listLt ver [1, 12] = true
      · rw [if_pos h1]; simp
      · rw [if_neg h1]
        by_cases h2 : listLt ver [2, 2] = true
        · rw [if_pos h2]; simp
        · rw [if_neg h2]; simp

theorem py_version_defaults_ne_keyError (f v : String) (b : Bool) :
    _py_version_defaults f v b ≠ .error .keyError := by
  unfold _py_version_defaults
  split
  · simp
  · split
    · simp
    · split
      · simp
      · split
        · cases htf : _tf_py_version_default v with
          | error e =>
            intro hh
            injection hh with hh2
            subst hh2
            exact tf_py_version_ne_keyError _ htf
          | ok p => simp
        · simp

/-! ### Inversion and evaluation lemmas for the modifier -/

theorem modifyPy_inv (n1 : Call) (f v : String) (b : Bool) (node' : Call)
    (h : modifyPy n1 f v b = .ok node') :
    (∃ p, _arg_value n1 PY_ARG = .ok (some p) ∧ node' = n1) ∨
    (_arg_value n1 PY_ARG = .ok none ∧ ∃ r, _py_version_defaults f v b = .ok r ∧
      ((strTruthy r = false ∧ node' = n1) ∨
       (∃ p, r = some p ∧ (p == "") = false ∧ node' = appendKw n1 PY_ARG p))) := by
  unfold modifyPy at h
  cases hpy : _arg_value n1 PY_ARG with
  | error e => rw [hpy] at h; simp at h
  | ok v0 =>
    rw [hpy] at h
    cases v0 with
    | some p =>
      simp only [] at h
      exact Or.inl ⟨p, rfl, (Except.ok.inj h).symm⟩
    | none =>
      simp only [] at h
      cases hpv : _py_version_defaults f v b with
      | error e => rw [hpv] at h; simp at h
      | ok r =>
        rw [hpv] at h
        refine Or.inr ⟨rfl, r, rfl, ?_⟩
        cases r with
        | none =>
          simp only [] at h
          exact Or.inl ⟨rfl, (Except.ok.inj h).symm⟩
        | some p =>
          simp only [] at h
          by_cases hp : (p == "") = true
          · rw [if_pos hp] at h
            refine Or.inl ⟨?_, (Except.ok.inj h).symm⟩
            simp [strTruthy, hp]
          · rw [if_neg hp] at h
            exact Or.inr ⟨p, rfl, by simpa using hp, (Except.ok.inj h).symm⟩

theorem modify_node_inv (node node' : Call) (h : modify_node node = .ok node') :
    (∃ fv, _arg_value node FRAMEWORK_ARG = .ok (some fv) ∧
      modifyPy node (_framework_from_node node).1 fv
        (_framework_from_node node).2 = .ok node') ∨
    (∃ d, _arg_value node FRAMEWORK_ARG = .ok none ∧
      dictGet FRAMEWORK_DEFAULTS (_framework_from_node node).1 = some d ∧
      modifyPy (appendKw node FRAMEWORK_ARG d) (_framework_from_node node).1 d
        (_framework_from_node node).2 = .ok node') := by
  unfold modify_node at h
  cases hfv : _arg_value node FRAMEWORK_ARG with
  | error e => rw [hfv] at h; simp at h
  | ok v0 =>
    rw [hfv] at h
    cases v0 with
    | some fv => exact Or.inl ⟨fv, rfl, by simpa using h⟩
    | none =>
      simp only [] at h
      cases hd : dictGet FRAMEWORK_DEFAULTS (_framework_from_node node).1 with
      | none => rw [hd] at h; simp at h
      | some d =>
        rw [hd] at h
        exact Or.inr ⟨d, rfl, rfl, by simpa using h⟩

theorem modify_node_func (node node' : Call) (h : modify_node node = .ok node') :
    node'.func = node.func := by
  rcases modify_node_inv node node' h with ⟨fv, _, hm⟩ | ⟨d, _, _, hm⟩ <;>
    rcases modifyPy_inv _ _ _ _ _ hm with ⟨p, _, hn⟩ |
      ⟨_, r, _, (⟨_, hn⟩ | ⟨p, _, _, hn⟩)⟩ <;>
    subst hn <;> rfl

/-- The evaluator answers `false` on a node whose image value is falsy, whose
version keyword is present, and whose expected py-version default is either
falsy or matched by a present py-version keyword. -/
theorem van_false_of (node : Call) (img : String) (img0 : Option String)
    (fv : String) (r : Option String)
    (himg : _arg_value node img = .ok img0)
    (htr : strTruthy img0 = false)
    (hfv : _arg_value node FRAMEWORK_ARG = .ok (some fv))
    (hr : _py_version_defaults (_framework_from_node node).1 fv
      (_framework_from_node node).2 = .ok r)
    (hpy : strTruthy r = true → ∃ p, _arg_value node PY_ARG = .ok (some p)) :
    _version_args_needed node img = .ok false := by
  unfold _version_args_needed
  rw [himg]
  simp only []
  rw [if_neg (by simp [htr])]
  rw [hfv]
  simp only []
  rw [hr]
  simp only []
  by_cases hstr : strTruthy r = true
  · obtain ⟨p, hp⟩ := hpy hstr
    rw [if_pos hstr, hp]
    simp
  · rw [if_neg hstr]

theorem modify_node_eval_both (node : Call) (d p : String)
    (hfv : _arg_value node FRAMEWORK_ARG = .ok none)
    (hd : dictGet FRAMEWORK_DEFAULTS (_framework_from_node node).1 = some d)
    (hpy : _arg_value node PY_ARG = .ok none)
    (hpv : _py_version_defaults (_framework_from_node node).1 d
      (_framework_from_node node).2 = .ok (some p))
    (hp : (p == "") = false) :
    modify_node node = .ok (appendKw (appendKw node FRAMEWORK_ARG d) PY_ARG p) := by
  unfold modify_node
  rw [hfv]
  simp only []
  rw [hd]
  simp only []
  unfold modifyPy
  rw [argValue_appendKw_ne node FRAMEWORK_ARG d PY_ARG (by decide), hpy]
  simp only []
  rw [hpv]
  simp only []
  rw [if_neg (by simp [hp])]

theorem modify_node_eval_pyonly (node : Call) (fv p : String)
    (hfv : _arg_value node FRAMEWORK_ARG = .ok (some fv))
    (hpy : _arg_value node PY_ARG = .ok none)
    (hpv : _py_version_defaults (_framework_from_node node).1 fv
      (_framework_from_node node).2 = .ok (some p))
    (hp : (p == "") = false) :
    modify_node node = .ok (appendKw node PY_ARG p) := by
  unfold modify_node
  rw [hfv]
  simp only []
  unfold modifyPy
  rw [hpy]
  simp only []
  rw [hpv]
  simp only []
  rw [if_neg (by simp [hp])]

theorem matcher_congr (node node' : Call) (names : List String)
    (h : node'.func = node.func) :
    _is_named_constructor node' names = _is_named_constructor node names := by
  unfold _is_named_constructor
  rw [h]

theorem van_true_inv (node : Call) (img : String)
    (h : _version_args_needed node img = .ok true) :
    ∃ img0, _arg_value node img = .ok img0 ∧ strTruthy img0 = false ∧
      (_arg_value node FRAMEWORK_ARG = .ok none ∨
       ∃ fv r, _arg_value node FRAMEWORK_ARG = .ok (some fv) ∧
         _py_version_defaults (_framework_from_node node).1 fv
           (_framework_from_node node).2 = .ok r ∧
         strTruthy r = true ∧ _arg_value node PY_ARG = .ok none) := by
  unfold _version_args_needed at h
  cases himg : _arg_value node img with
  | error e => rw [himg] at h; simp at h
  | ok img0 =>
    rw [himg] at h
    simp only [] at h
    by_cases htr : strTruthy img0 = true
    · rw [if_pos htr] at h; simp at h
    · rw [if_neg htr] at h
      refine ⟨img0, rfl, by simpa using htr, ?_⟩
      cases hfv : _arg_value node FRAMEWORK_ARG with
      | error e => rw [hfv] at h; simp at h
      | ok fv0 =>
        rw [hfv] at h
        cases fv0 with
        | none => exact Or.inl rfl
        | some fv =>
          simp only [] at h
          cases hr : _py_version_defaults (_framework_from_node node).1 fv
              (_framework_from_node node).2 with
          | error e => rw [hr] at h; simp at h
          | ok r =>
            rw [hr] at h
            simp only [] at h
            by_cases hstr : strTruthy r = true
            · rw [if_pos hstr] at h
              cases hpy : _arg_value node PY_ARG with
              | error e => rw [hpy] at h; simp at h
              | ok py0 =>
                rw [hpy] at h
                simp only [] at h
                have hpy0 : py0 = none := by simpa using Except.ok.inj h
                subst hpy0
                exact Or.inr ⟨fv, r, rfl, hr, hstr, rfl⟩
            · rw [if_neg hstr] at h; simp at h

/-- After a successful modification of a node the evaluator needed, the
evaluator is satisfied. -/
theorem van_preserved (node node' : Call) (img : String)
    (hi1 : FRAMEWORK_ARG ≠ img) (hi2 : PY_ARG ≠ img)
    (h1 : _version_args_needed node img = .ok true)
    (h2 : modify_node node = .ok node') :
    _version_args_needed node' img = .ok false := by
  obtain ⟨img0, himg, htr, hrest⟩ := van_true_inv node img h1
  rcases modify_node_inv node node' h2 with ⟨fv', hfv', hmPy⟩ | ⟨d, hfvN, hd, hmPy⟩
  · -- the version keyword was already present
    rcases hrest with hfvnone | ⟨fv, r, hfv, hr, hstr, hpyn⟩
    · rw [hfv'] at hfvnone
      exact absurd (Except.ok.inj hfvnone) (by simp)
    · have hfveq : fv' = fv := by
        rw [hfv'] at hfv
        simpa using Except.ok.inj hfv
      rcases modifyPy_inv _ _ _ _ _ hmPy with ⟨p, hpyp, hn⟩ |
        ⟨hpy0, r2, hr2, (⟨hstr2, hn⟩ | ⟨p, hr2p, hpne, hn⟩)⟩
      · rw [hpyn] at hpyp
        exact absurd (Except.ok.inj hpyp) (by simp)
      · have hre : r2 = r := by
          rw [hfveq] at hr2
          rw [hr2] at hr
          exact Except.ok.inj hr
        rw [hre, hstr] at hstr2
        exact absurd hstr2 (by simp)
      · subst hn
        refine van_false_of _ img img0 fv' r2 ?_ htr ?_ hr2 ?_
        · rw [argValue_appendKw_ne _ _ _ _ hi2, himg]
        · rw [argValue_appendKw_ne _ _ _ _ (show PY_ARG ≠ FRAMEWORK_ARG by decide),
            hfv']
        · intro _
          refine ⟨p, ?_⟩
          rw [argValue_appendKw_same, hpy0]
  · -- the version keyword was absent; its default was appended
    rcases hrest with hfvnone | ⟨fv, r, hfv, hr, hstr, hpyn⟩
    swap
    · rw [hfvN] at hfv
      exact absurd (Except.ok.inj hfv) (by simp)
    · obtain ⟨r', hr'⟩ := table_py _ _ (_framework_from_node node).2 hd
      rcases modifyPy_inv _ _ _ _ _ hmPy with ⟨p, hpyp, hn⟩ |
        ⟨hpy0, r2, hr2, (⟨hstr2, hn⟩ | ⟨p, hr2p, hpne, hn⟩)⟩
      · subst hn
        refine van_false_of _ img img0 d r' ?_ htr ?_ hr' ?_
        · rw [argValue_appendKw_ne _ _ _ _ hi1, himg]
        · rw [argValue_appendKw_same, hfvN]
        · intro _
          exact ⟨p, hpyp⟩
      · subst hn
        refine van_false_of _ img img0 d r2 ?_ htr ?_ hr2 ?_
        · rw [argValue_appendKw_ne _ _ _ _ hi1, himg]
        · rw [argValue_appendKw_same, hfvN]
        · intro hstr3
          rw [hstr2] at hstr3
          exact absurd hstr3 (by simp)
      · subst hr2p
        subst hn
        refine van_false_of _ img img0 d (some p) ?_ htr ?_ hr2 ?_
        · rw [argValue_appendKw_ne _ _ _ _ hi2,
            argValue_appendKw_ne _ _ _ _ hi1, himg]
        · rw [argValue_appendKw_ne _ _ _ _ (show PY_ARG ≠ FRAMEWORK_ARG by decide),
            argValue_appendKw_same, hfvN]
        · intro _
          refine ⟨p, ?_⟩
          rw [argValue_appendKw_same, hpy0]

/-! ### Remaining helper lemmas -/

theorem py_defaults_tf_estimator (v : String) :
    _py_version_defaults "TensorFlow" v false =
      match _tf_py_version_default v with
      | .error e => .error e
      | .ok p => .ok (some p) := by
  unfold _py_version_defaults
  rw [if_neg (by decide), if_neg (by decide), if_neg (by decide), if_pos (by decide)]

theorem py_defaults_sklearn_model (v : String) :
    _py_version_defaults "SKLearn" v true = .ok none := by
  unfold _py_version_defaults
  rw [if_neg (by decide), if_neg (by decide), if_neg (by decide), if_neg (by decide)]

theorem py_defaults_tf_model (v : String) :
    _py_version_defaults "TensorFlow" v true = .ok none := by
  unfold _py_version_defaults
  rw [if_neg (by decide), if_neg (by decide), if_neg (by decide), if_neg (by decide)]

theorem tf_default_eq (v : String) (hv : (v == "") = false) (ver : List Int)
    (hp : pyIntList (pySplitDot v) = .ok ver) :
    _tf_py_version_default v =
      .ok (if listLt ver [1, 12] = true then "py2"
           else if listLt ver [2, 2] = true then "py3" else "py37") := by
  unfold _tf_py_version_default
  rw [if_neg (by simp [hv]), hp]
  simp only []
  by_cases h1 : listLt ver [1, 12] = true
  · rw [if_pos h1, if_pos h1]
  · rw [if_neg h1, if_neg h1]
    by_cases h2 : listLt ver [2, 2] = true
    · rw [if_pos h2, if_pos h2]
    · rw [if_neg h2, if_neg h2]

theorem listLt_12_le_22 (ver : List Int) (h : listLt ver [1, 12] = true) :
    listLt ver [2, 2] = true := by
  cases ver with
  | nil => rfl
  | cons x xs =>
    simp only [listLt] at h ⊢
    by_cases h1 : x < 1
    · rw [if_pos (by omega : x < 2)]
    · rw [if_neg h1] at h
      by_cases h1' : (1 : Int) < x
      · rw [if_pos h1'] at h
        exact absurd h (by simp)
      · rw [if_pos (by omega : x < 2)]

theorem modifyPy_ne_keyError (n1 : Call) (f v : String) (b : Bool) :
    modifyPy n1 f v b ≠ .error .keyError := by
  unfold modifyPy
  cases hpy : _arg_value n1 PY_ARG with
  | error e =>
    simp only []
    intro hh
    injection hh with h2
    exact argValueList_ne_keyError _ _ (h2 ▸ hpy)
  | ok py0 =>
    cases py0 with
    | some p => simp
    | none =>
      simp only []
      cases hpv : _py_version_defaults f v b with
      | error e =>
        simp only []
        intro hh
        injection hh with h2
        exact py_version_defaults_ne_keyError _ _ _ (h2 ▸ hpv)
      | ok r =>
        cases r with
        | none => simp
        | some p =>
          simp only []
          by_cases hp : (p == "") = true
          · rw [if_pos hp]
            simp
          · rw [if_neg hp]
            simp

theorem modify_node_ne_keyError_of_some (node : Call)
    (hd : ∃ d, dictGet FRAMEWORK_DEFAULTS (_framework_from_node node).1 = some d) :
    modify_node node ≠ .error .keyError := by
  obtain ⟨d, hd⟩ := hd
  unfold modify_node
  cases hfv : _arg_value node FRAMEWORK_ARG with
  | error e =>
    simp only []
    intro hh
    injection hh with h2
    exact argValueList_ne_keyError _ _ (h2 ▸ hfv)
  | ok v0 =>
    cases v0 with
    | some fv =>
      simp only []
      exact modifyPy_ne_keyError _ _ _ _
    | none =>
      simp only []
      rw [hd]
      simp only []
      exact modifyPy_ne_keyError _ _ _ _

/-! ### The claims -/

/-- **C1.** For every call to a recognized estimator constructor (one of Chainer,
MXNet, PyTorch, SKLearn, TensorFlow) that has no `image_name`, `framework_version`,
or `py_version` keyword, `modify_node` appends a `framework_version` keyword whose
string value equals the `FRAMEWORK_DEFAULTS` entry for that framework, and also
appends a `py_version` keyword. -/
theorem c1_estimator_defaults_appended (node : Call)
    (hrec : _is_named_constructor node FRAMEWORK_CLASSES = true)
    (habs : ∀ kw ∈ node.keywords, kw.arg ≠ some "image_name" ∧
      kw.arg ≠ some FRAMEWORK_ARG ∧ kw.arg ≠ some PY_ARG) :
    ∃ d p, dictGet FRAMEWORK_DEFAULTS (_framework_from_node node).1 = some d ∧
      modify_node node = .ok (appendKw (appendKw node FRAMEWORK_ARG d) PY_ARG p) := by
  obtain ⟨cls, hmem, hf⟩ := matcher_trailing node FRAMEWORK_CLASSES hrec
  have hfw : _framework_from_node node = (cls, false) := framework_of_class node cls hmem hf
  have hfv : _arg_value node FRAMEWORK_ARG = .ok none :=
    argValue_of_absent node _ (fun kw hkw => (habs kw hkw).2.1)
  have hpy : _arg_value node PY_ARG = .ok none :=
    argValue_of_absent node _ (fun kw hkw => (habs kw hkw).2.2)
  rcases mem_framework_classes cls hmem with h | h | h | h | h <;> subst h
  · exact ⟨"4.1.0", "py3", by rw [hfw]; decide,
      modify_node_eval_both node _ _ hfv (by rw [hfw]; decide) hpy
        (by rw [hfw]; decide) (by decide)⟩
  · exact ⟨"1.2.0", "py2", by rw [hfw]; decide,
      modify_node_eval_both node _ _ hfv (by rw [hfw]; decide) hpy
        (by rw [hfw]; decide) (by decide)⟩
  · exact ⟨"0.4.0", "py3", by rw [hfw]; decide,
      modify_node_eval_both node _ _ hfv (by rw [hfw]; decide) hpy
        (by rw [hfw]; decide) (by decide)⟩
  · exact ⟨"0.20.0", "py3", by rw [hfw]; decide,
      modify_node_eval_both node _ _ hfv (by rw [hfw]; decide) hpy
        (by rw [hfw]; decide) (by decide)⟩
  · exact ⟨"1.11.0", "py2", by rw [hfw]; decide,
      modify_node_eval_both node _ _ hfv (by rw [hfw]; decide) hpy
        (by rw [hfw]; decide) (by decide)⟩

/-- Witness for C1: `MXNet(entry_point="train.py")` becomes
`MXNet(entry_point="train.py", framework_version="1.2.0", py_version="py2")`. -/
theorem c1_witness :
    modify_node mxnetCall = .ok mxnetCallModified ∧
    (∃ d p, dictGet FRAMEWORK_DEFAULTS (_framework_from_node mxnetCall).1 = some d ∧
      modify_node mxnetCall = .ok (appendKw (appendKw mxnetCall FRAMEWORK_ARG d) PY_ARG p)) :=
  ⟨by decide, c1_estimator_defaults_appended mxnetCall (by decide) (by decide)⟩

/-- **C2.** Idempotence: for every call node on which `node_should_be_modified`
returns true, after `modify_node` is applied once to that node (successfully),
`node_should_be_modified` on the resulting node returns false. -/
theorem c2_modify_idempotent (node node' : Call)
    (h1 : node_should_be_modified node = .ok true)
    (h2 : modify_node node = .ok node') :
    node_should_be_modified node' = .ok false := by
  have hfunc := modify_node_func node node' h2
  unfold node_should_be_modified at h1 ⊢
  rw [matcher_congr node node' FRAMEWORK_CLASSES hfunc,
    matcher_congr node node' MODEL_CLASSES hfunc]
  by_cases hA : _is_named_constructor node FRAMEWORK_CLASSES = true
  · rw [if_pos hA] at h1 ⊢
    exact van_preserved node node' "image_name" (by decide) (by decide) h1 h2
  · rw [if_neg hA] at h1 ⊢
    by_cases hB : _is_named_constructor node MODEL_CLASSES = true
    · rw [if_pos hB] at h1 ⊢
      exact van_preserved node node' "image" (by decide) (by decide) h1 h2
    · rw [if_neg hB] at h1
      simp at h1

/-- Witness for C2: the modified `MXNet(entry_point="train.py")` no longer needs
modification. -/
theorem c2_witness :
    node_should_be_modified mxnetCall = .ok true ∧
    modify_node mxnetCall = .ok mxnetCallModified ∧
    node_should_be_modified mxnetCallModified = .ok false :=
  ⟨by decide, by decide, c2_modify_idempotent mxnetCall mxnetCallModified (by decide) (by decide)⟩

/-- **C3 (counterexample).** The claim that a keyword with a non-literal value is
treated as absent and that the evaluator returns without raising is false: on
`MXNet(framework_version=<computed>)` the keyword lookup, the evaluator, and the
public predicate all raise `AttributeError` (`kw.value.s` on a node without an
`s` attribute), and the lookup does not answer "no value". -/
theorem c3_counterexample :
    _arg_value nonLiteralVersionCall FRAMEWORK_ARG = .error .attributeError ∧
    _version_args_needed nonLiteralVersionCall "image_name" = .error .attributeError ∧
    node_should_be_modified nonLiteralVersionCall = .error .attributeError ∧
    ¬ _arg_value nonLiteralVersionCall FRAMEWORK_ARG = .ok none := by decide

/-- **C3 (amended).** For every call node, when the first keyword whose name
matches the looked-up argument name has a non-literal (computed) value, the
keyword-value lookup raises `AttributeError` instead of treating the keyword as
absent. -/
theorem c3_amended_nonliteral_raises (node : Call) (arg : String)
    (pre rest : List Keyword) (kw : Keyword)
    (hsplit : node.keywords = pre ++ kw :: rest)
    (harg : kw.arg = some arg) (hval : kw.value = .nonLiteral)
    (hpre : ∀ k ∈ pre, k.arg ≠ some arg) :
    _arg_value node arg = .error .attributeError := by
  unfold _arg_value
  rw [hsplit, argValueList_append, argValueList_of_absent pre arg hpre]
  simp only [argValueList]
  rw [if_pos (by simp [harg]), hval]

/-- Witness for the amended C3. -/
theorem c3_amended_witness :
    _arg_value nonLiteralVersionCall FRAMEWORK_ARG = .error .attributeError :=
  c3_amended_nonliteral_raises nonLiteralVersionCall FRAMEWORK_ARG [] []
    { arg := some FRAMEWORK_ARG, value := .nonLiteral } rfl rfl rfl (by simp)

/-- **C4.** For a TensorFlow estimator call the computed `py_version` default is
a total function of the version string under tuple-lexicographic integer
comparison: an empty version yields "py2"; a parsed integer sequence strictly
below `[1, 12]` yields "py2"; otherwise strictly below `[2, 2]` yields "py3";
otherwise "py37". -/
theorem c4_tf_py_version_thresholds (v : String) (ver : List Int)
    (hp : v ≠ "" → pyIntList (pySplitDot v) = .ok ver) :
    (v = "" → _py_version_defaults "TensorFlow" v false = .ok (some "py2")) ∧
    (v ≠ "" → List.Lex (fun a b : Int => a < b) ver [1, 12] →
      _py_version_defaults "TensorFlow" v false = .ok (some "py2")) ∧
    (v ≠ "" → ¬ List.Lex (fun a b : Int => a < b) ver [1, 12] →
      List.Lex (fun a b : Int => a < b) ver [2, 2] →
      _py_version_defaults "TensorFlow" v false = .ok (some "py3")) ∧
    (v ≠ "" → ¬ List.Lex (fun a b : Int => a < b) ver [2, 2] →
      _py_version_defaults "TensorFlow" v false = .ok (some "py37")) := by
  refine ⟨?_, ?_, ?_, ?_⟩
  · intro hv
    subst hv
    decide
  · intro hv hlex
    have hb : listLt ver [1, 12] = true := (listLt_iff_lex _ _).mpr hlex
    rw [py_defaults_tf_estimator,
      tf_default_eq v (by simpa using hv) ver (hp hv), if_pos hb]
  · intro hv h1 h2
    have hb1 : listLt ver [1, 12] = false := by
      cases hll : listLt ver [1, 12] with
      | false => rfl
      | true => exact absurd ((listLt_iff_lex _ _).mp hll) h1
    have hb2 : listLt ver [2, 2] = true := (listLt_iff_lex _ _).mpr h2
    rw [py_defaults_tf_estimator,
      tf_default_eq v (by simpa using hv) ver (hp hv),
      if_neg (by simp [hb1]), if_pos hb2]
  · intro hv h2
    have hb2 : listLt ver [2, 2] = false := by
      cases hll : listLt ver [2, 2] with
      | false => rfl
      | true => exact absurd ((listLt_iff_lex _ _).mp hll) h2
    have hb1 : listLt ver [1, 12] = false := by
      cases hll : listLt ver [1, 12] with
      | false => rfl
      | true =>
        exact absurd ((listLt_iff_lex _ _).mp (listLt_12_le_22 ver hll)) h2
    rw [py_defaults_tf_estimator,
      tf_default_eq v (by simpa using hv) ver (hp hv),
      if_neg (by simp [hb1]), if_neg (by simp [hb2])]

/-- Witness for C4: the four anchor versions and the empty version land in their
buckets; in particular "1.12.0" gives "py3" because `[1,12] < [1,12,0]`. -/
theorem c4_witness :
    _py_version_defaults "TensorFlow" "1.11.0" false = .ok (some "py2") ∧
    _py_version_defaults "TensorFlow" "1.12.0" false = .ok (some "py3") ∧
    _py_version_defaults "TensorFlow" "2.1.0" false = .ok (some "py3") ∧
    _py_version_defaults "TensorFlow" "2.2.0" false = .ok (some "py37") ∧
    _py_version_defaults "TensorFlow" "" false = .ok (some "py2") := by
  refine ⟨?_, ?_, ?_, ?_, ?_⟩
  · exact (c4_tf_py_version_thresholds "1.11.0" [1, 11, 0] (fun _ => by decide)).2.1
      (by decide) ((listLt_iff_lex _ _).mp (by decide))
  · exact (c4_tf_py_version_thresholds "1.12.0" [1, 12, 0] (fun _ => by decide)).2.2.1
      (by decide) (fun h => absurd ((listLt_iff_lex _ _).mpr h) (by decide))
      ((listLt_iff_lex _ _).mp (by decide))
  · exact (c4_tf_py_version_thresholds "2.1.0" [2, 1, 0] (fun _ => by decide)).2.2.1
      (by decide) (fun h => absurd ((listLt_iff_lex _ _).mpr h) (by decide))
      ((listLt_iff_lex _ _).mp (by decide))
  · exact (c4_tf_py_version_thresholds "2.2.0" [2, 2, 0] (fun _ => by decide)).2.2.2
      (by decide) (fun h => absurd ((listLt_iff_lex _ _).mpr h) (by decide))
  · exact (c4_tf_py_version_thresholds "" [] (fun h => absurd rfl h)).1 rfl

/-- **C5.** The call-site matcher accepts exactly the three callee shapes (bare
candidate name, `sagemaker.<module>.<ClassName>`, and
`sagemaker.<module>.<submodule>.<ClassName>` with the submodule "model" or
"estimator" and the module a lowercase framework name); in particular the three
positive and two negative TensorFlow examples behave as stated. -/
theorem c5_matcher_shapes :
    (∀ node names, _is_named_constructor node names = true ↔
      matchesRecognizedShape node.func names) ∧
    _is_named_constructor { func := .name "TensorFlow", keywords := [] }
      FRAMEWORK_CLASSES = true ∧
    _is_named_constructor
      { func := .attributeNode (.attributeNode (.name "sagemaker") "tensorflow")
          "TensorFlow", keywords := [] } FRAMEWORK_CLASSES = true ∧
    _is_named_constructor
      { func := .attributeNode (.attributeNode (.attributeNode (.name "sagemaker")
          "tensorflow") "estimator") "TensorFlow", keywords := [] }
      FRAMEWORK_CLASSES = true ∧
    _is_named_constructor
      { func := .attributeNode (.attributeNode (.name "other") "tensorflow")
          "TensorFlow", keywords := [] } FRAMEWORK_CLASSES = false ∧
    _is_named_constructor
      { func := .attributeNode (.attributeNode (.attributeNode (.name "sagemaker")
          "tensorflow") "wrongsubmodule") "TensorFlow", keywords := [] }
      FRAMEWORK_CLASSES = false :=
  ⟨matcher_iff, by decide, by decide, by decide, by decide, by decide⟩

/-- **C6.** Image-present short-circuit: a call that supplies a non-empty
string-literal value for its image argument name ("image_name" for estimator
classes, "image" for model classes) is never reported as needing modification,
whatever its version keywords. -/
theorem c6_image_short_circuit (node : Call) (s t : String)
    (hest : _is_named_constructor node FRAMEWORK_CLASSES = true →
      _arg_value node "image_name" = .ok (some s) ∧ s ≠ "")
    (hmod : _is_named_constructor node MODEL_CLASSES = true →
      _arg_value node "image" = .ok (some t) ∧ t ≠ "") :
    node_should_be_modified node = .ok false := by
  unfold node_should_be_modified
  by_cases hA : _is_named_constructor node FRAMEWORK_CLASSES = true
  · rw [if_pos hA]
    obtain ⟨him, hs⟩ := hest hA
    unfold _version_args_needed
    rw [him]
    simp only []
    rw [if_pos (by simp [strTruthy, hs])]
  · rw [if_neg hA]
    by_cases hB : _is_named_constructor node MODEL_CLASSES = true
    · rw [if_pos hB]
      obtain ⟨him, ht⟩ := hmod hB
      unfold _version_args_needed
      rw [him]
      simp only []
      rw [if_pos (by simp [strTruthy, ht])]
    · rw [if_neg hB]

/-- Witness for C6: `TensorFlow(image_name="my-image:latest")` needs no change. -/
theorem c6_witness : node_should_be_modified tfImageCall = .ok false :=
  c6_image_short_circuit tfImageCall "my-image:latest" "x"
    (fun _ => ⟨by decide, by decide⟩) (fun h => absurd h (by decide))

/-- **C7.** Model-class suffix stripping: a callee whose trailing name is
"PyTorchModel" yields framework "PyTorch" with the model flag set, and its
py-version default is "py3"; Chainer models also default to "py3"; SKLearn and
TensorFlow models get no py-version default, so `modify_node` appends no
`py_version` keyword for such calls. -/
theorem c7_model_suffix_and_py_defaults :
    (∀ node, (node.func = .name "PyTorchModel" ∨
        ∃ v, node.func = .attributeNode v "PyTorchModel") →
      _framework_from_node node = ("PyTorch", true)) ∧
    (∀ v, _py_version_defaults "PyTorch" v true = .ok (some "py3")) ∧
    (∀ v, _py_version_defaults "Chainer" v true = .ok (some "py3")) ∧
    (∀ v, _py_version_defaults "SKLearn" v true = .ok none ∧
      _py_version_defaults "TensorFlow" v true = .ok none) ∧
    (∀ node node', ((_framework_from_node node).1 = "SKLearn" ∨
        (_framework_from_node node).1 = "TensorFlow") →
      (_framework_from_node node).2 = true →
      modify_node node = .ok node' →
      node' = node ∨ ∃ d, node' = appendKw node FRAMEWORK_ARG d) := by
  refine ⟨?_, ?_, ?_, ?_, ?_⟩
  · intro node hf
    rw [framework_from_node_of_trailing node _ hf]
    decide
  · intro v
    unfold _py_version_defaults
    rw [if_pos (by decide)]
  · intro v
    unfold _py_version_defaults
    rw [if_pos (by decide)]
  · intro v
    exact ⟨py_defaults_sklearn_model v, py_defaults_tf_model v⟩
  · intro node node' hfw1 hb hmod
    rcases modify_node_inv node node' hmod with ⟨fv, hfv, hmPy⟩ | ⟨d, hfvN, hd, hmPy⟩ <;>
      rcases modifyPy_inv _ _ _ _ _ hmPy with ⟨p, _, hn⟩ |
        ⟨hpy0, r, hr, (⟨hstr, hn⟩ | ⟨p, hrp, hpne, hn⟩)⟩
    · exact Or.inl hn
    · exact Or.inl hn
    · exfalso
      rw [hb] at hr
      rcases hfw1 with h | h <;> rw [h] at hr
      · rw [py_defaults_sklearn_model] at hr
        exact Option.noConfusion (hrp ▸ Except.ok.inj hr)
      · rw [py_defaults_tf_model] at hr
        exact Option.noConfusion (hrp ▸ Except.ok.inj hr)
    · exact Or.inr ⟨d, hn⟩
    · exact Or.inr ⟨d, hn⟩
    · exfalso
      rw [hb] at hr
      rcases hfw1 with h | h <;> rw [h] at hr
      · rw [py_defaults_sklearn_model] at hr
        exact Option.noConfusion (hrp ▸ Except.ok.inj hr)
      · rw [py_defaults_tf_model] at hr
        exact Option.noConfusion (hrp ▸ Except.ok.inj hr)

/-- Witness for C7: `PyTorchModel()` strips to ("PyTorch", model), and modifying
`SKLearnModel()` appends only the `framework_version` keyword. -/
theorem c7_witness :
    _framework_from_node pytorchModelCall = ("PyTorch", true) ∧
    modify_node sklearnModelCall =
      .ok (appendKw sklearnModelCall FRAMEWORK_ARG "0.20.0") ∧
    (appendKw sklearnModelCall FRAMEWORK_ARG "0.20.0" = sklearnModelCall ∨
      ∃ d, appendKw sklearnModelCall FRAMEWORK_ARG "0.20.0" =
        appendKw sklearnModelCall FRAMEWORK_ARG d) :=
  ⟨c7_model_suffix_and_py_defaults.1 pytorchModelCall (Or.inl rfl), by decide,
    c7_model_suffix_and_py_defaults.2.2.2.2 sklearnModelCall _
      (Or.inl (by decide)) (by decide) (by decide)⟩

/-- **C8.** Frame condition: a successful `modify_node` appends at most two new
keyword arguments — the `framework_version` keyword first (only if it was
absent, and then with the table default as value), then the `py_version`
keyword (only if it was absent and a non-empty default was computed) — and
never removes, reorders, or rewrites any pre-existing keyword or the callee. -/
theorem c8_frame_condition (node node' : Call) (h : modify_node node = .ok node') :
    node'.func = node.func ∧
    ∃ fwOpt pyOpt : Option String,
      node'.keywords = node.keywords
        ++ (match fwOpt with
            | some d => [{ arg := some FRAMEWORK_ARG, value := KwVal.str d }]
            | none => [])
        ++ (match pyOpt with
            | some p => [{ arg := some PY_ARG, value := KwVal.str p }]
            | none => []) ∧
      (∀ d ∈ fwOpt, _arg_value node FRAMEWORK_ARG = .ok none ∧
        dictGet FRAMEWORK_DEFAULTS (_framework_from_node node).1 = some d) ∧
      (∀ p ∈ pyOpt, _arg_value node PY_ARG = .ok none ∧ p ≠ "") := by
  refine ⟨modify_node_func node node' h, ?_⟩
  rcases modify_node_inv node node' h with ⟨fv, hfv, hmPy⟩ | ⟨d, hfvN, hd, hmPy⟩ <;>
    rcases modifyPy_inv _ _ _ _ _ hmPy with ⟨p, hpyp, hn⟩ |
      ⟨hpy0, r, hr, (⟨hstr, hn⟩ | ⟨p, hrp, hpne, hn⟩)⟩ <;>
    subst hn
  · exact ⟨none, none, by simp, by simp, by simp⟩
  · exact ⟨none, none, by simp, by simp, by simp⟩
  · refine ⟨none, some p, by simp [appendKw], by simp, ?_⟩
    intro q hq
    rw [Option.mem_some_iff] at hq
    subst hq
    exact ⟨hpy0, by simpa using hpne⟩
  · refine ⟨some d, none, by simp [appendKw], ?_, by simp⟩
    intro q hq
    rw [Option.mem_some_iff] at hq
    subst hq
    exact ⟨hfvN, hd⟩
  · refine ⟨some d, none, by simp [appendKw], ?_, by simp⟩
    intro q hq
    rw [Option.mem_some_iff] at hq
    subst hq
    exact ⟨hfvN, hd⟩
  · refine ⟨some d, some p, by simp [appendKw], ?_, ?_⟩
    · intro q hq
      rw [Option.mem_some_iff] at hq
      subst hq
      exact ⟨hfvN, hd⟩
    · intro q hq
      rw [Option.mem_some_iff] at hq
      subst hq
      refine ⟨?_, by simpa using hpne⟩
      rw [argValue_appendKw_ne _ _ _ _ (show FRAMEWORK_ARG ≠ PY_ARG by decide)] at hpy0
      exact hpy0

/-- Witness for C8 at `MXNet(entry_point="train.py")`. -/
theorem c8_witness :
    mxnetCallModified.func = mxnetCall.func ∧
    ∃ fwOpt pyOpt : Option String,
      mxnetCallModified.keywords = mxnetCall.keywords
        ++ (match fwOpt with
            | some d => [{ arg := some FRAMEWORK_ARG, value := KwVal.str d }]
            | none => [])
        ++ (match pyOpt with
            | some p => [{ arg := some PY_ARG, value := KwVal.str p }]
            | none => []) ∧
      (∀ d ∈ fwOpt, _arg_value mxnetCall FRAMEWORK_ARG = .ok none ∧
        dictGet FRAMEWORK_DEFAULTS (_framework_from_node mxnetCall).1 = some d) ∧
      (∀ p ∈ pyOpt, _arg_value mxnetCall PY_ARG = .ok none ∧ p ≠ "") :=
  c8_frame_condition mxnetCall mxnetCallModified (by decide)

/-- **C9.** Safety of the defaults lookup: whenever `node_should_be_modified`
answers true, the framework derived in `modify_node` is one of the five keys of
`FRAMEWORK_DEFAULTS`, so the table lookup is defined, the empty-identifier
defensive fallback is unreachable, and `modify_node` can never raise `KeyError`. -/
theorem c9_defaults_lookup_safe (node : Call)
    (h : node_should_be_modified node = .ok true) :
    (_framework_from_node node).1 ∈ FRAMEWORK_CLASSES ∧
    (∃ d, dictGet FRAMEWORK_DEFAULTS (_framework_from_node node).1 = some d) ∧
    node.func ≠ Func.other ∧
    modify_node node ≠ .error .keyError := by
  unfold node_should_be_modified at h
  have hmain : (_framework_from_node node).1 ∈ FRAMEWORK_CLASSES ∧
      node.func ≠ Func.other := by
    by_cases hA : _is_named_constructor node FRAMEWORK_CLASSES = true
    · obtain ⟨cls, hmem, hf⟩ := matcher_trailing node FRAMEWORK_CLASSES hA
      have hfw := framework_of_class node cls hmem hf
      refine ⟨by rw [hfw]; exact hmem, ?_⟩
      intro heq
      rcases hf with hh | ⟨v, hh⟩ <;> rw [heq] at hh <;> exact Func.noConfusion hh
    · rw [if_neg hA] at h
      by_cases hB : _is_named_constructor node MODEL_CLASSES = true
      · obtain ⟨cls, hmem, hf⟩ := matcher_trailing node MODEL_CLASSES hB
        obtain ⟨fw, hfwmem, hfw⟩ := framework_of_model_class node cls hmem hf
        refine ⟨by rw [hfw]; exact hfwmem, ?_⟩
        intro heq
        rcases hf with hh | ⟨v, hh⟩ <;> rw [heq] at hh <;> exact Func.noConfusion hh
      · rw [if_neg hB] at h
        simp at h
  obtain ⟨hfwmem, hother⟩ := hmain
  have hd := dictGet_of_class _ hfwmem
  exact ⟨hfwmem, hd, hother, modify_node_ne_keyError_of_some node hd⟩

/-- Witness for C9 at `Chainer()`. -/
theorem c9_witness :
    (_framework_from_node chainerCall).1 ∈ FRAMEWORK_CLASSES ∧
    (∃ d, dictGet FRAMEWORK_DEFAULTS (_framework_from_node chainerCall).1 = some d) ∧
    chainerCall.func ≠ Func.other ∧
    modify_node chainerCall ≠ .error .keyError :=
  c9_defaults_lookup_safe chainerCall (by decide)

/-- **C10.** An empty-string `framework_version` counts as supplied, unlike an
empty-string image: on a recognized estimator call with `framework_version=""`
and no `image_name` or `py_version` keyword, `modify_node` appends no
`framework_version` keyword and only a `py_version` keyword ("py2" for
TensorFlow, where the empty version falls into the lowest bucket); an
empty-string literal for the image argument is instead treated as absent. -/
theorem c10_empty_version_vs_empty_image :
    (∀ node, _is_named_constructor node FRAMEWORK_CLASSES = true →
      _arg_value node FRAMEWORK_ARG = .ok (some "") →
      (∀ kw ∈ node.keywords, kw.arg ≠ some "image_name" ∧ kw.arg ≠ some PY_ARG) →
      ∃ p, (p == "") = false ∧
        modify_node node = .ok (appendKw node PY_ARG p) ∧
        ((_framework_from_node node).1 = "TensorFlow" → p = "py2")) ∧
    (∀ node, _is_named_constructor node FRAMEWORK_CLASSES = true →
      _arg_value node "image_name" = .ok (some "") →
      _arg_value node FRAMEWORK_ARG = .ok none →
      node_should_be_modified node = .ok true) := by
  constructor
  · intro node hrec hfv habs
    obtain ⟨cls, hmem, hf⟩ := matcher_trailing node FRAMEWORK_CLASSES hrec
    have hfw : _framework_from_node node = (cls, false) :=
      framework_of_class node cls hmem hf
    have hpy : _arg_value node PY_ARG = .ok none :=
      argValue_of_absent node _ (fun kw hkw => (habs kw hkw).2)
    rcases mem_framework_classes cls hmem with hh | hh | hh | hh | hh <;> subst hh
    · exact ⟨"py3", by decide,
        modify_node_eval_pyonly node _ _ hfv hpy (by rw [hfw]; decide) (by decide),
        fun hTF => by rw [hfw] at hTF; exact absurd hTF (by decide)⟩
    · exact ⟨"py2", by decide,
        modify_node_eval_pyonly node _ _ hfv hpy (by rw [hfw]; decide) (by decide),
        fun _ => rfl⟩
    · exact ⟨"py3", by decide,
        modify_node_eval_pyonly node _ _ hfv hpy (by rw [hfw]; decide) (by decide),
        fun hTF => by rw [hfw] at hTF; exact absurd hTF (by decide)⟩
    · exact ⟨"py3", by decide,
        modify_node_eval_pyonly node _ _ hfv hpy (by rw [hfw]; decide) (by decide),
        fun hTF => by rw [hfw] at hTF; exact absurd hTF (by decide)⟩
    · exact ⟨"py2", by decide,
        modify_node_eval_pyonly node _ _ hfv hpy (by rw [hfw]; decide) (by decide),
        fun _ => rfl⟩
  · intro node hrec him hfvN
    unfold node_should_be_modified
    rw [if_pos hrec]
    unfold _version_args_needed
    rw [him]
    simp only []
    rw [if_neg (by decide), hfvN]

/-- Witness for C10: `TensorFlow(framework_version="")` gains only
`py_version="py2"`, while `MXNet(image_name="")` still needs modification. -/
theorem c10_witness :
    modify_node tfEmptyVersionCall = .ok (appendKw tfEmptyVersionCall PY_ARG "py2") ∧
    node_should_be_modified mxEmptyImageCall = .ok true := by
  constructor
  · obtain ⟨p, hp, hmod, hTF⟩ := c10_empty_version_vs_empty_image.1
      tfEmptyVersionCall (by decide) (by decide) (by decide)
    have hpv : p = "py2" := hTF (by decide)
    rw [hpv] at hmod
    exact hmod
  · exact c10_empty_version_vs_empty_image.2 mxEmptyImageCall (by decide) (by decide)
      (by decide)
